import Mathlib

/-!
# Verification of the MCP streamable-HTTP session multiplexer

Shallow embedding of `src/McpStreamableAuth/src/lib/streamable-http.ts`:
the session registry (the `transports` object), the `POST /mcp` routing
logic, the shared GET/DELETE session handler, the `onsessioninitialized`
and `onclose` callbacks, and the `/health` endpoint, together with a
transition system describing the reachable states of the server.
-/

namespace McpStreamable

/-- The `transports` object of the source: a finite map from session id
to transport, modelled as an association list whose values are transport
object identifiers (indices into the store of all created transports). -/
abbrev Registry := List (String × Nat)

/-- Reading `transports[sessionId]` in the source: first entry whose key
matches, `none` when absent. -/
def lookup (m : Registry) (k : String) : Option Nat :=
  match m with
  | [] => none
  | (k', v) :: rest => if k' = k then some v else lookup rest k

/-- The assignment `transports[sessionId] = transport` of the
`onsessioninitialized` callback: JavaScript object assignment replaces
the value when the key is present and appends a new property otherwise.
There is no duplicate check in the source. -/
def register (m : Registry) (k : String) (v : Nat) : Registry :=
  match m with
  | [] => [(k, v)]
  | (k', v') :: rest => if k' = k then (k, v) :: rest else (k', v') :: register rest k v

/-- The statement `delete transports[transport.sessionId]` of the
`onclose` callback: removes the property with that key when present. -/
def evict (m : Registry) (k : String) : Registry :=
  match m with
  | [] => []
  | (k', v) :: rest => if k' = k then rest else (k', v) :: evict rest k

@[simp] theorem lookup_nil (k : String) : lookup [] k = none := rfl

@[simp] theorem register_nil (k : String) (v : Nat) : register [] k v = [(k, v)] := rfl

theorem lookup_register_self (m : Registry) (k : String) (v : Nat) :
    lookup (register m k v) k = some v := by
  induction m with
  | nil => simp [lookup]
  | cons p rest ih =>
    obtain ⟨k', v'⟩ := p
    by_cases h : k' = k
    · simp [register, lookup, h]
    · simp [register, lookup, h, ih]

theorem lookup_register_ne (m : Registry) (k k' : String) (v : Nat) (h : k' ≠ k) :
    lookup (register m k v) k' = lookup m k' := by
  induction m with
  | nil =>
    simp only [register_nil, lookup, lookup_nil]
    exact if_neg (Ne.symm h)
  | cons p rest ih =>
    obtain ⟨k₀, v₀⟩ := p
    by_cases hk : k₀ = k
    · subst hk
      simp only [register, if_pos rfl, lookup, if_neg (Ne.symm h)]
    · simp only [register, if_neg hk, lookup, ih]

theorem lookup_evict_ne (m : Registry) (k k' : String) (h : k' ≠ k) :
    lookup (evict m k) k' = lookup m k' := by
  induction m with
  | nil => rfl
  | cons p rest ih =>
    obtain ⟨k₀, v₀⟩ := p
    by_cases hk : k₀ = k
    · subst hk
      simp [evict, lookup, Ne.symm h]
    · simp only [evict, if_neg hk, lookup, ih]

/-- The keys of the registry. -/
def keys (m : Registry) : List String := m.map Prod.fst

theorem lookup_eq_none_of_not_mem_keys (m : Registry) (k : String)
    (h : k ∉ keys m) : lookup m k = none := by
  induction m with
  | nil => rfl
  | cons p rest ih =>
    obtain ⟨k₀, v₀⟩ := p
    simp only [keys, List.map_cons, List.mem_cons, not_or] at h
    have hne : k₀ ≠ k := fun hh => h.1 hh.symm
    simp only [lookup, if_neg hne, ih (by simpa [keys] using h.2)]

theorem mem_keys_of_lookup (m : Registry) (k : String) (v : Nat)
    (h : lookup m k = some v) : k ∈ keys m := by
  induction m with
  | nil => simp [lookup] at h
  | cons p rest ih =>
    obtain ⟨k₀, v₀⟩ := p
    simp only [lookup] at h
    by_cases hk : k₀ = k
    · simp [keys, hk]
    · simp only [if_neg hk] at h
      simp [keys, ih h] at *
      tauto

theorem lookup_evict_self (m : Registry) (k : String)
    (hnd : (keys m).Nodup) : lookup (evict m k) k = none := by
  induction m with
  | nil => rfl
  | cons p rest ih =>
    obtain ⟨k₀, v₀⟩ := p
    simp only [keys, List.map_cons, List.nodup_cons] at hnd
    by_cases hk : k₀ = k
    · subst hk
      simpa [evict] using lookup_eq_none_of_not_mem_keys rest k₀ hnd.1
    · simp [evict, hk, lookup, ih hnd.2]

theorem keys_register_of_mem (m : Registry) (k : String) (v : Nat)
    (h : k ∈ keys m) : keys (register m k v) = keys m := by
  induction m with
  | nil => simp [keys] at h
  | cons p rest ih =>
    obtain ⟨k₀, v₀⟩ := p
    by_cases hk : k₀ = k
    · subst hk
      simp [register, keys]
    · simp only [keys, List.map_cons, List.mem_cons] at h
      rcases h with h | h
      · exact absurd h.symm hk
      · have ih' := ih (by simpa [keys] using h)
        simp only [keys, List.map_cons] at ih'
        simp only [register, if_neg hk, keys, List.map_cons, ih']

theorem keys_register_of_not_mem (m : Registry) (k : String) (v : Nat)
    (h : k ∉ keys m) : keys (register m k v) = keys m ++ [k] := by
  induction m with
  | nil => simp [keys]
  | cons p rest ih =>
    obtain ⟨k₀, v₀⟩ := p
    simp only [keys, List.map_cons, List.mem_cons, not_or] at h
    have hne : k₀ ≠ k := fun hh => h.1 hh.symm
    have ih' := ih (by simpa [keys] using h.2)
    simp only [keys, List.map_cons] at ih'
    simp only [register, if_neg hne, keys, List.map_cons, ih', List.cons_append]

theorem keys_nodup_register (m : Registry) (k : String) (v : Nat)
    (h : (keys m).Nodup) : (keys (register m k v)).Nodup := by
  by_cases hm : k ∈ keys m
  · rw [keys_register_of_mem m k v hm]; exact h
  · rw [keys_register_of_not_mem m k v hm]
    simpa [List.nodup_append] using ⟨h, hm⟩

theorem length_register_of_mem (m : Registry) (k : String) (v : Nat)
    (h : k ∈ keys m) : (register m k v).length = m.length := by
  have h1 : (keys (register m k v)).length = (keys m).length := by
    rw [keys_register_of_mem m k v h]
  simpa [keys] using h1

theorem length_register_of_not_mem (m : Registry) (k : String) (v : Nat)
    (h : k ∉ keys m) : (register m k v).length = m.length + 1 := by
  have h1 : (keys (register m k v)).length = (keys m ++ [k]).length := by
    rw [keys_register_of_not_mem m k v h]
  simpa [keys] using h1

theorem evict_of_not_mem (m : Registry) (k : String)
    (h : k ∉ keys m) : evict m k = m := by
  induction m with
  | nil => rfl
  | cons p rest ih =>
    obtain ⟨k₀, v₀⟩ := p
    simp only [keys, List.map_cons, List.mem_cons, not_or] at h
    have hne : k₀ ≠ k := fun hh => h.1 hh.symm
    simp only [evict, if_neg hne, ih (by simpa [keys] using h.2)]

theorem length_evict_of_mem (m : Registry) (k : String)
    (h : k ∈ keys m) : m.length = (evict m k).length + 1 := by
  induction m with
  | nil => simp [keys] at h
  | cons p rest ih =>
    obtain ⟨k₀, v₀⟩ := p
    by_cases hk : k₀ = k
    · simp [evict, hk]
    · simp only [keys, List.map_cons, List.mem_cons] at h
      rcases h with h | h
      · exact absurd h.symm hk
      · simp only [evict, if_neg hk, List.length_cons, ih (by simpa [keys] using h)]

theorem keys_evict_subset (m : Registry) (k : String) :
    keys (evict m k) ⊆ keys m := by
  induction m with
  | nil => simp [evict]
  | cons p rest ih =>
    obtain ⟨k₀, v₀⟩ := p
    by_cases hk : k₀ = k
    · simp only [evict, if_pos hk]
      intro a ha
      simp only [keys, List.map_cons, List.mem_cons]
      exact Or.inr (by simpa [keys] using ha)
    · simp only [evict, if_neg hk]
      intro a ha
      simp only [keys, List.map_cons, List.mem_cons] at ha ⊢
      rcases ha with ha | ha
      · exact Or.inl ha
      · exact Or.inr (ih (by simpa [keys] using ha))

theorem keys_nodup_evict (m : Registry) (k : String)
    (h : (keys m).Nodup) : (keys (evict m k)).Nodup := by
  induction m with
  | nil => exact h
  | cons p rest ih =>
    obtain ⟨k₀, v₀⟩ := p
    simp only [keys, List.map_cons, List.nodup_cons] at h
    by_cases hk : k₀ = k
    · simpa [evict, hk, keys] using h.2
    · simp only [evict, if_neg hk, keys, List.map_cons, List.nodup_cons]
      refine ⟨fun hmem => h.1 (keys_evict_subset rest k (by simpa [keys] using hmem)), ?_⟩
      simpa [keys] using ih h.2

/-- A `StreamableHTTPServerTransport` object as the multiplexer observes
it: `sessionId` is `undefined` until the SDK fires
`onsessioninitialized`, and `closed` records whether the transport has
shut down (the moment `onclose` fires). -/
structure Transport where
  sessionId : Option String
  closed : Bool
deriving DecidableEq, Repr

/-- `BOUND` in the lifecycle: id assigned and not closed. -/
def Bound (t : Transport) : Bool := !t.closed && t.sessionId.isSome

/-- The request body as the handler inspects it: `express.json()` may
leave `req.body` undefined, and a JSON object body may or may not carry
a string `method` field. -/
inductive Body where
  | absent
  | obj (method : Option String)
deriving DecidableEq, Repr

/-- The test `req.body && req.body.method === 'initialize'`. -/
def bodyIsInitialize : Body → Bool
  | .absent => false
  | .obj m => m = some "initialize"

/-- JavaScript truthiness of `req.headers['mcp-session-id']`
(a `string | undefined`): `undefined` and the empty string are falsy. -/
def truthy : Option String → Bool
  | none => false
  | some s => !(s = "")

/-- Outcome of the branch cascade in the `POST /mcp` handler. -/
inductive PostRoute where
  | reuse (tid : Nat)
  | create
  | badRequest
deriving DecidableEq, Repr

/-- The routing of the `POST /mcp` handler, transliterated:
`if (sessionId && transports[sessionId])` reuse the stored transport;
`else if (!sessionId && req.body && req.body.method === 'initialize')`
create a fresh one; `else` reject with a 400. -/
def routePost (m : Registry) (header : Option String) (body : Body) : PostRoute :=
  if truthy header ∧ (lookup m (header.getD "")).isSome then
    match lookup m (header.getD "") with
    | some tid => .reuse tid
    | none => .badRequest
  else if !(truthy header) ∧ bodyIsInitialize body then
    .create
  else
    .badRequest

/-- Outcome of the shared GET/DELETE handler `handleSessionRequest`. -/
inductive SessionRoute where
  | delegate (tid : Nat)
  | invalid
deriving DecidableEq, Repr

/-- `handleSessionRequest`, transliterated:
`if (!sessionId || !transports[sessionId])` reject with a 400, else
delegate to the stored transport. -/
def routeSession (m : Registry) (header : Option String) : SessionRoute :=
  if !(truthy header) ∨ (lookup m (header.getD "")).isNone then
    .invalid
  else
    match lookup m (header.getD "") with
    | some tid => .delegate tid
    | none => .invalid

/-- The JSON-RPC error body literal of the `POST /mcp` 400 branch:
`{ jsonrpc: '2.0', error: { code: -32000, message: ... }, id: null }`.
`id` is `Option Int` so that `none` models JSON `null`. -/
structure ErrorBody where
  jsonrpc : String
  code : Int
  message : String
  id : Option Int
deriving DecidableEq, Repr

/-- The exact body sent by `res.status(400).json({...})` in the POST
handler. -/
def postErrorBody : ErrorBody :=
  { jsonrpc := "2.0", code := -32000,
    message := "Bad Request: No valid session ID provided", id := none }

/-- The body of the `/health` response, field for field. -/
structure HealthBody where
  status : String
  timestamp : String
  activeSessions : Nat
  serverName : String
  serverVersion : String
deriving DecidableEq, Repr

/-- Whole-server state: the `transports` map plus the store of every
transport object created so far (a transport's identifier is its index
in `objs`). -/
structure ServerState where
  transports : Registry
  objs : List Transport
deriving DecidableEq, Repr

/-- State at process start: `const transports = {}`, no objects yet. -/
def initState : ServerState := { transports := [], objs := [] }

/-- `Object.keys(transports).length`, the value of `activeSessions`. -/
def sessionCount (s : ServerState) : Nat := s.transports.length

/-- The `/health` handler: builds its JSON from the closure state,
never reading the request (in particular not its headers). -/
def handleHealth (s : ServerState) ( _header : Option String)
    (timestamp serverName serverVersion : String) : HealthBody :=
  { status := "healthy", timestamp := timestamp,
    activeSessions := sessionCount s,
    serverName := serverName, serverVersion := serverVersion }

/-- Has some transport object (live or closed) ever carried this
session id? `randomUUID` collisions are excluded by the environment
model, so a fresh id must fail this test. -/
def usedId (s : ServerState) (sid : String) : Bool :=
  s.objs.any (fun t => t.sessionId == some sid)

/-- Events driving the transition system: the three HTTP entry points,
plus the two SDK callbacks the multiplexer installs
(`onsessioninitialized` and `onclose`). -/
inductive Event where
  | post (header : Option String) (body : Body)
  | initSession (tid : Nat) (sid : String)
  | closeTransport (tid : Nat)
  | getMcp (header : Option String)
  | deleteMcp (header : Option String)
deriving DecidableEq, Repr

/-- Observable output of one event: what the multiplexer itself writes
to the HTTP response. -/
inductive Output where
  | delegated (tid : Nat)
  | created (tid : Nat)
  | rejectedJson (status : Nat) (body : ErrorBody)
  | rejectedText (status : Nat) (body : String)
  | headerSet (sid : String)
  | closedOut
deriving DecidableEq, Repr

/-- The session-id response header write `res.setHeader('mcp-session-id', sid)`:
performed only by the `onsessioninitialized` callback. -/
def setsSessionHeader : Output → Option String
  | .headerSet sid => some sid
  | _ => none

/-- One atomic step of the server. `none` means the event cannot occur:
the SDK initializes a transport only once, with a non-empty
collision-free `randomUUID`, only while it is open, and fires `onclose`
at most once per transport.
  - `post`: the `POST /mcp` handler; the create branch runs
    `new StreamableHTTPServerTransport(...)` and `server.connect`.
  - `initSession`: the SDK assigns `sid` to the transport and fires the
    `onsessioninitialized` callback, which stores the transport in the
    map and sets the response header.
  - `closeTransport`: the transport shuts down (explicit DELETE
    termination, connection drop, or fatal engine error) and fires the
    installed `onclose`, which deletes the map entry when
    `transport.sessionId` is truthy.
  - `getMcp` / `deleteMcp`: the shared `handleSessionRequest`. -/
def step (s : ServerState) : Event → Option (ServerState × Output)
  | .post header body =>
    match routePost s.transports header body with
    | .reuse tid => some (s, .delegated tid)
    | .create =>
      some ({ s with objs := s.objs ++ [{ sessionId := none, closed := false }] },
        .created s.objs.length)
    | .badRequest => some (s, .rejectedJson 400 postErrorBody)
  | .initSession tid sid =>
    match s.objs[tid]? with
    | none => none
    | some t =>
      if t.closed then none
      else if t.sessionId.isSome then none
      else if sid = "" then none
      else if usedId s sid then none
      else
        some ({ objs := s.objs.set tid { t with sessionId := some sid },
                transports := register s.transports sid tid },
          .headerSet sid)
  | .closeTransport tid =>
    match s.objs[tid]? with
    | none => none
    | some t =>
      if t.closed then none
      else
        let objs' := s.objs.set tid { t with closed := true }
        match t.sessionId with
        | some sid => some ({ objs := objs', transports := evict s.transports sid }, .closedOut)
        | none => some ({ objs := objs', transports := s.transports }, .closedOut)
  | .getMcp header =>
    match routeSession s.transports header with
    | .delegate tid => some (s, .delegated tid)
    | .invalid => some (s, .rejectedText 400 "Invalid or missing session ID")
  | .deleteMcp header =>
    match routeSession s.transports header with
    | .delegate tid => some (s, .delegated tid)
    | .invalid => some (s, .rejectedText 400 "Invalid or missing session ID")

theorem not_mem_keys_of_lookup_eq_none (m : Registry) (k : String)
    (h : lookup m k = none) : k ∉ keys m := by
  induction m with
  | nil => simp [keys]
  | cons p rest ih =>
    obtain ⟨k₀, v₀⟩ := p
    simp only [lookup] at h
    by_cases hk : k₀ = k
    · simp [hk] at h
    · simp only [if_neg hk] at h
      simp only [keys, List.map_cons, List.mem_cons, not_or]
      exact ⟨fun hh => hk hh.symm, by simpa [keys] using ih h⟩

theorem countP_set_balance (l : List Transport) (i : Nat) (t x : Transport)
    (p : Transport → Bool) (h : l[i]? = some t) :
    (l.set i x).countP p + (if p t then 1 else 0) =
      l.countP p + (if p x then 1 else 0) := by
  induction l generalizing i with
  | nil => simp at h
  | cons a rest ih =>
    cases i with
    | zero =>
      simp only [List.getElem?_cons_zero, Option.some.injEq] at h
      subst h
      simp only [List.set_cons_zero, List.countP_cons]
      omega
    | succ n =>
      simp only [List.getElem?_cons_succ] at h
      simp only [List.set_cons_succ, List.countP_cons]
      have := ih n h
      omega

/-- The consistency invariant tying the `transports` map to the
transport objects: every registry entry points at an open transport
carrying exactly that session id (spec invariant I2), session ids are
never shared between two transport objects (I1/I3), registry keys are
distinct and non-empty, and the registry size equals the number of
`BOUND` transports. -/
structure StateInv (s : ServerState) : Prop where
  lookup_bound : ∀ (sid : String) (tid : Nat), lookup s.transports sid = some tid →
    ∃ t, s.objs[tid]? = some t ∧ t.sessionId = some sid ∧ t.closed = false
  bound_lookup : ∀ (tid : Nat) (t : Transport) (sid : String), s.objs[tid]? = some t → t.sessionId = some sid →
    t.closed = false → lookup s.transports sid = some tid
  keysNodup : (keys s.transports).Nodup
  sid_inj : ∀ (i j : Nat) (ti tj : Transport) (sid : String), s.objs[i]? = some ti → s.objs[j]? = some tj →
    ti.sessionId = some sid → tj.sessionId = some sid → i = j
  keys_ne : ∀ (sid : String) (tid : Nat), lookup s.transports sid = some tid → sid ≠ ""
  count_eq : s.transports.length = s.objs.countP Bound

theorem inv_init : StateInv initState := by
  constructor <;> simp [initState, keys, lookup]

theorem usedId_false_spec (s : ServerState) (sid : String)
    (h : usedId s sid = false) :
    ∀ (i : Nat) (u : Transport), s.objs[i]? = some u → u.sessionId ≠ some sid := by
  intro i u hu hsid
  have hmem : u ∈ s.objs := List.getElem?_mem hu
  have := (List.any_eq_false).mp h u hmem
  simp [hsid] at this

theorem inv_post (s s' : ServerState) (header : Option String) (body : Body)
    (o : Output) (hinv : StateInv s)
    (hstep : step s (.post header body) = some (s', o)) : StateInv s' := by
  cases hr : routePost s.transports header body with
  | reuse tid =>
    simp only [step, hr] at hstep
    obtain ⟨h1, _⟩ := Prod.mk.injEq .. ▸ Option.some.injEq .. ▸ hstep
    exact h1 ▸ hinv
  | badRequest =>
    simp only [step, hr] at hstep
    obtain ⟨h1, _⟩ := Prod.mk.injEq .. ▸ Option.some.injEq .. ▸ hstep
    exact h1 ▸ hinv
  | create =>
    simp only [step, hr, Option.some.injEq, Prod.mk.injEq] at hstep
    obtain ⟨h1, _⟩ := hstep
    subst h1
    obtain ⟨lb, bl, nd, inj, kne, cnt⟩ := hinv
    have hget : ∀ (i : Nat) (u : Transport),
        (s.objs ++ [{ sessionId := none, closed := false }])[i]? = some u →
        s.objs[i]? = some u ∨ u = { sessionId := none, closed := false } := by
      intro i u hu
      rcases lt_or_ge i s.objs.length with hlt | hge
      · exact Or.inl (by rwa [List.getElem?_append_left hlt] at hu)
      · rw [List.getElem?_append_right hge] at hu
        rcases Nat.lt_or_ge (i - s.objs.length) 1 with h1 | h1
        · interval_cases h : i - s.objs.length
          · simp at hu
            exact Or.inr hu.symm
        · rw [List.getElem?_eq_none (by simpa using h1)] at hu
          exact absurd hu (by simp)
    constructor
    · intro sid tid hl
      obtain ⟨t, ht, hts, htc⟩ := lb sid tid hl
      refine ⟨t, ?_, hts, htc⟩
      have hlt : tid < s.objs.length := (List.getElem?_eq_some.mp ht).1
      rwa [List.getElem?_append_left hlt]
    · intro tid t sid ht hts htc
      rcases hget tid t ht with h | h
      · exact bl tid t sid h hts htc
      · rw [h] at hts; simp at hts
    · exact nd
    · intro i j ti tj sid hi hj hsi hsj
      rcases hget i ti hi with h | h
      · rcases hget j tj hj with h' | h'
        · exact inj i j ti tj sid h h' hsi hsj
        · rw [h'] at hsj; simp at hsj
      · rw [h] at hsi; simp at hsi
    · exact kne
    · simp only [List.countP_append, List.countP_cons, List.countP_nil]
      have : Bound { sessionId := none, closed := false } = false := by
        simp [Bound]
      simp [this, cnt]

theorem inv_initSession (s s' : ServerState) (tid : Nat) (sid : String)
    (o : Output) (hinv : StateInv s)
    (hstep : step s (.initSession tid sid) = some (s', o)) : StateInv s' := by
  obtain ⟨lb, bl, nd, inj, kne, cnt⟩ := hinv
  cases hget : s.objs[tid]? with
  | none => simp [step, hget] at hstep
  | some t =>
    obtain ⟨tsid, tcl⟩ := t
    cases tcl with
    | true => simp [step, hget] at hstep
    | false =>
    cases tsid with
    | some x => simp [step, hget] at hstep
    | none =>
    by_cases he : sid = ""
    · simp [step, hget, he] at hstep
    by_cases hu : usedId s sid = true
    · simp [step, hget, he, hu] at hstep
    simp only [step, hget, Bool.false_eq_true, if_false, Option.isSome_none, he, hu,
      Option.some.injEq, Prod.mk.injEq] at hstep
    obtain ⟨h1, _⟩ := hstep
    subst h1
    have hfresh : ∀ (i : Nat) (u : Transport), s.objs[i]? = some u → u.sessionId ≠ some sid :=
      usedId_false_spec s sid (by simpa using hu)
    have htlt : tid < s.objs.length := (List.getElem?_eq_some.mp hget).1
    have hlknone : lookup s.transports sid = none := by
      cases hl : lookup s.transports sid with
      | none => rfl
      | some tid' =>
        obtain ⟨t'', ht'', hts'', _⟩ := lb sid tid' hl
        exact absurd hts'' (hfresh tid' t'' ht'')
    have hnotmem : sid ∉ keys s.transports :=
      not_mem_keys_of_lookup_eq_none s.transports sid hlknone
    have hsetget : (s.objs.set tid { sessionId := some sid, closed := false })[tid]? =
        some { sessionId := some sid, closed := false } :=
      List.getElem?_set_self htlt
    constructor
    · intro sid' tid' hl
      by_cases hss : sid' = sid
      · subst hss
        rw [lookup_register_self] at hl
        obtain rfl := Option.some.injEq .. ▸ hl
        exact ⟨{ sessionId := some sid', closed := false }, hsetget, rfl, rfl⟩
      · rw [lookup_register_ne _ _ _ _ hss] at hl
        obtain ⟨t'', ht'', hts'', htc''⟩ := lb sid' tid' hl
        by_cases htt : tid' = tid
        · subst htt
          rw [hget] at ht''
          obtain rfl := Option.some.injEq .. ▸ ht''
          simp at hts''
        · exact ⟨t'', by rwa [List.getElem?_set_ne (fun hh => htt hh.symm)], hts'', htc''⟩
    · intro tid' u sid' hu' hus' huc'
      by_cases htt : tid' = tid
      · subst htt
        rw [hsetget] at hu'
        obtain rfl := Option.some.injEq .. ▸ hu'
        simp only at hus'
        obtain rfl := Option.some.injEq .. ▸ hus'
        exact lookup_register_self ..
      · rw [List.getElem?_set_ne (fun hh => htt hh.symm)] at hu'
        by_cases hss : sid' = sid
        · subst hss
          exact absurd hus' (hfresh tid' u hu')
        · rw [lookup_register_ne _ _ _ _ hss]
          exact bl tid' u sid' hu' hus' huc'
    · exact keys_nodup_register _ _ _ nd
    · intro i j ti tj sid' hi hj hsi hsj
      by_cases hit : i = tid <;> by_cases hjt : j = tid
      · rw [hit, hjt]
      · subst hit
        rw [hsetget] at hi
        obtain rfl := Option.some.injEq .. ▸ hi
        simp only at hsi
        obtain rfl := Option.some.injEq .. ▸ hsi
        rw [List.getElem?_set_ne (fun hh => hjt hh.symm)] at hj
        exact absurd hsj (hfresh j tj hj)
      · subst hjt
        rw [hsetget] at hj
        obtain rfl := Option.some.injEq .. ▸ hj
        simp only at hsj
        obtain rfl := Option.some.injEq .. ▸ hsj
        rw [List.getElem?_set_ne (fun hh => hit hh.symm)] at hi
        exact absurd hsi (hfresh i ti hi)
      · rw [List.getElem?_set_ne (fun hh => hit hh.symm)] at hi
        rw [List.getElem?_set_ne (fun hh => hjt hh.symm)] at hj
        exact inj i j ti tj sid' hi hj hsi hsj
    · intro sid' tid' hl
      by_cases hss : sid' = sid
      · exact hss ▸ he
      · rw [lookup_register_ne _ _ _ _ hss] at hl
        exact kne sid' tid' hl
    · have hlen := length_register_of_not_mem s.transports sid tid hnotmem
      have hbal := countP_set_balance s.objs tid { sessionId := none, closed := false }
        { sessionId := some sid, closed := false } Bound hget
      have hbt : Bound { sessionId := none, closed := false } = false := by simp [Bound]
      have hbt' : Bound { sessionId := some sid, closed := false } = true := by simp [Bound]
      rw [hbt, hbt'] at hbal
      simp at hbal
      simp only [hlen, cnt]
      omega

theorem inv_close (s s' : ServerState) (tid : Nat)
    (o : Output) (hinv : StateInv s)
    (hstep : step s (.closeTransport tid) = some (s', o)) : StateInv s' := by
  obtain ⟨lb, bl, nd, inj, kne, cnt⟩ := hinv
  cases hget : s.objs[tid]? with
  | none => simp [step, hget] at hstep
  | some t =>
    obtain ⟨tsid, tcl⟩ := t
    cases tcl with
    | true => simp [step, hget] at hstep
    | false =>
    have htlt : tid < s.objs.length := (List.getElem?_eq_some.mp hget).1
    cases tsid with
    | none =>
      simp only [step, hget, Bool.false_eq_true, if_false,
        Option.some.injEq, Prod.mk.injEq] at hstep
      obtain ⟨h1, _⟩ := hstep
      subst h1
      have hsetget : (s.objs.set tid { sessionId := none, closed := true })[tid]? =
          some { sessionId := none, closed := true } :=
        List.getElem?_set_self htlt
      constructor
      · intro sid' tid' hl
        obtain ⟨t'', ht'', hts'', htc''⟩ := lb sid' tid' hl
        by_cases htt : tid' = tid
        · subst htt
          rw [hget] at ht''
          obtain rfl := Option.some.injEq .. ▸ ht''
          simp at hts''
        · exact ⟨t'', by rwa [List.getElem?_set_ne (fun hh => htt hh.symm)], hts'', htc''⟩
      · intro tid' u sid' hu' hus' huc'
        by_cases htt : tid' = tid
        · subst htt
          rw [hsetget] at hu'
          obtain rfl := Option.some.injEq .. ▸ hu'
          simp at hus'
        · rw [List.getElem?_set_ne (fun hh => htt hh.symm)] at hu'
          exact bl tid' u sid' hu' hus' huc'
      · exact nd
      · intro i j ti tj sid' hi hj hsi hsj
        by_cases hit : i = tid <;> by_cases hjt : j = tid
        · rw [hit, hjt]
        · subst hit
          rw [hsetget] at hi
          obtain rfl := Option.some.injEq .. ▸ hi
          simp at hsi
        · subst hjt
          rw [hsetget] at hj
          obtain rfl := Option.some.injEq .. ▸ hj
          simp at hsj
        · rw [List.getElem?_set_ne (fun hh => hit hh.symm)] at hi
          rw [List.getElem?_set_ne (fun hh => hjt hh.symm)] at hj
          exact inj i j ti tj sid' hi hj hsi hsj
      · exact kne
      · have hbal := countP_set_balance s.objs tid { sessionId := none, closed := false }
          { sessionId := none, closed := true } Bound hget
        have hbt : Bound { sessionId := none, closed := false } = false := by simp [Bound]
        have hbt' : Bound { sessionId := none, closed := true } = false := by simp [Bound]
        rw [hbt, hbt'] at hbal
        simp at hbal
        show s.transports.length =
          List.countP Bound (s.objs.set tid { sessionId := none, closed := true })
        omega
    | some sid =>
      simp only [step, hget, Bool.false_eq_true, if_false,
        Option.some.injEq, Prod.mk.injEq] at hstep
      obtain ⟨h1, _⟩ := hstep
      subst h1
      have hlk : lookup s.transports sid = some tid :=
        bl tid { sessionId := some sid, closed := false } sid hget rfl rfl
      have hsetget : (s.objs.set tid { sessionId := some sid, closed := true })[tid]? =
          some { sessionId := some sid, closed := true } :=
        List.getElem?_set_self htlt
      constructor
      · intro sid' tid' hl
        by_cases hss : sid' = sid
        · subst hss
          rw [lookup_evict_self _ _ nd] at hl
          exact absurd hl (by simp)
        · rw [lookup_evict_ne _ _ _ hss] at hl
          obtain ⟨t'', ht'', hts'', htc''⟩ := lb sid' tid' hl
          by_cases htt : tid' = tid
          · subst htt
            rw [hget] at ht''
            obtain rfl := Option.some.injEq .. ▸ ht''
            simp only [Option.some.injEq] at hts''
            exact absurd hts''.symm hss
          · exact ⟨t'', by rwa [List.getElem?_set_ne (fun hh => htt hh.symm)], hts'', htc''⟩
      · intro tid' u sid' hu' hus' huc'
        by_cases htt : tid' = tid
        · subst htt
          rw [hsetget] at hu'
          obtain rfl := Option.some.injEq .. ▸ hu'
          simp at huc'
        · rw [List.getElem?_set_ne (fun hh => htt hh.symm)] at hu'
          have hl := bl tid' u sid' hu' hus' huc'
          by_cases hss : sid' = sid
          · subst hss
            rw [hl] at hlk
            obtain rfl := Option.some.injEq .. ▸ hlk
            exact absurd rfl htt
          · rw [lookup_evict_ne _ _ _ hss]
            exact hl
      · exact keys_nodup_evict _ _ nd
      · intro i j ti tj sid' hi hj hsi hsj
        by_cases hit : i = tid <;> by_cases hjt : j = tid
        · rw [hit, hjt]
        · rw [hit, hsetget] at hi
          have hti : ti = { sessionId := some sid, closed := true } :=
            (Option.some.injEq .. ▸ hi).symm
          rw [hti] at hsi
          simp only [Option.some.injEq] at hsi
          rw [List.getElem?_set_ne (fun hh => hjt hh.symm)] at hj
          have htj := inj tid j { sessionId := some sid, closed := false } tj sid' hget hj
            (by rw [hsi]) hsj
          rw [hit]
          exact htj
        · rw [hjt, hsetget] at hj
          have htj : tj = { sessionId := some sid, closed := true } :=
            (Option.some.injEq .. ▸ hj).symm
          rw [htj] at hsj
          simp only [Option.some.injEq] at hsj
          rw [List.getElem?_set_ne (fun hh => hit hh.symm)] at hi
          have hti := inj i tid ti { sessionId := some sid, closed := false } sid' hi hget hsi
            (by rw [hsj])
          rw [hjt]
          exact hti
        · rw [List.getElem?_set_ne (fun hh => hit hh.symm)] at hi
          rw [List.getElem?_set_ne (fun hh => hjt hh.symm)] at hj
          exact inj i j ti tj sid' hi hj hsi hsj
      · intro sid' tid' hl
        by_cases hss : sid' = sid
        · subst hss
          rw [lookup_evict_self _ _ nd] at hl
          exact absurd hl (by simp)
        · rw [lookup_evict_ne _ _ _ hss] at hl
          exact kne sid' tid' hl
      · have hmem : sid ∈ keys s.transports := mem_keys_of_lookup _ _ _ hlk
        have hlen := length_evict_of_mem s.transports sid hmem
        have hbal := countP_set_balance s.objs tid { sessionId := some sid, closed := false }
          { sessionId := some sid, closed := true } Bound hget
        have hbt : Bound { sessionId := some sid, closed := false } = true := by simp [Bound]
        have hbt' : Bound { sessionId := some sid, closed := true } = false := by simp [Bound]
        rw [hbt, hbt'] at hbal
        simp at hbal
        show (evict s.transports sid).length =
          List.countP Bound (s.objs.set tid { sessionId := some sid, closed := true })
        omega


theorem inv_session_handler (s s' : ServerState) (header : Option String)
    (o : Output) (e : Event) (hinv : StateInv s)
    (he : e = .getMcp header ∨ e = .deleteMcp header)
    (hstep : step s e = some (s', o)) : StateInv s' := by
  rcases he with rfl | rfl <;>
  · cases hr : routeSession s.transports header with
    | delegate tid =>
      simp only [step, hr, Option.some.injEq, Prod.mk.injEq] at hstep
      exact hstep.1 ▸ hinv
    | invalid =>
      simp only [step, hr, Option.some.injEq, Prod.mk.injEq] at hstep
      exact hstep.1 ▸ hinv

theorem inv_step (s s' : ServerState) (e : Event) (o : Output)
    (hinv : StateInv s) (hstep : step s e = some (s', o)) : StateInv s' := by
  cases e with
  | post header body => exact inv_post s s' header body o hinv hstep
  | initSession tid sid => exact inv_initSession s s' tid sid o hinv hstep
  | closeTransport tid => exact inv_close s s' tid o hinv hstep
  | getMcp header => exact inv_session_handler s s' header o _ hinv (Or.inl rfl) hstep
  | deleteMcp header => exact inv_session_handler s s' header o _ hinv (Or.inr rfl) hstep

/-- States the server can actually be in. -/
inductive Reachable : ServerState → Prop where
  | init : Reachable initState
  | step {s s' : ServerState} {e : Event} {o : Output} :
      Reachable s → step s e = some (s', o) → Reachable s'

/-- Running a whole trace of events, collecting the outputs. -/
def run (s : ServerState) : List Event → Option (ServerState × List Output)
  | [] => some (s, [])
  | e :: es =>
    match step s e with
    | none => none
    | some (s', o) =>
      match run s' es with
      | none => none
      | some (s'', os) => some (s'', o :: os)

theorem reachable_inv (s : ServerState) (h : Reachable s) : StateInv s := by
  induction h with
  | init => exact inv_init
  | step hr hs ih => exact inv_step _ _ _ _ ih hs

theorem run_reachable (s : ServerState) (evs : List Event) (s' : ServerState)
    (os : List Output) (h : Reachable s) (hrun : run s evs = some (s', os)) :
    Reachable s' := by
  induction evs generalizing s os with
  | nil =>
    simp only [run, Option.some.injEq, Prod.mk.injEq] at hrun
    exact hrun.1 ▸ h
  | cons e es ih =>
    cases hstep : step s e with
    | none => simp [run, hstep] at hrun
    | some p =>
      obtain ⟨s₁, o⟩ := p
      cases hrest : run s₁ es with
      | none => simp [run, hstep, hrest] at hrun
      | some q =>
        obtain ⟨s₂, os₁⟩ := q
        simp only [run, hstep, hrest, Option.some.injEq, Prod.mk.injEq] at hrun
        exact ih s₁ os₁ (Reachable.step h hstep) (hrun.1 ▸ hrest)

/-- An `initialize` request body. -/
def exampleInitBody : Body := Body.obj (some "initialize")

/-- State after the creation branch of `POST /mcp` ran but before the
SDK initialized the session: one unbound transport, empty map. -/
def exampleMid : ServerState :=
  { transports := [], objs := [{ sessionId := none, closed := false }] }

/-- State after the session handshake completed with id "abc". -/
def exampleState : ServerState :=
  { transports := [("abc", 0)], objs := [{ sessionId := some "abc", closed := false }] }

/-- State after the "abc" session was closed again. -/
def exampleClosed : ServerState :=
  { transports := [], objs := [{ sessionId := some "abc", closed := true }] }

theorem exampleMid_step :
    step initState (.post none exampleInitBody) = some (exampleMid, .created 0) := by decide

theorem exampleState_step :
    step exampleMid (.initSession 0 "abc") = some (exampleState, .headerSet "abc") := by decide

theorem exampleClosed_step :
    step exampleState (.closeTransport 0) = some (exampleClosed, .closedOut) := by decide

theorem exampleState_reachable : Reachable exampleState :=
  Reachable.step (Reachable.step Reachable.init exampleMid_step) exampleState_step

theorem step_preserves_entry (s s' : ServerState) (e : Event) (o : Output)
    (hstep : step s e = some (s', o)) (i : Nat) (u : Transport)
    (hget : s.objs[i]? = some u) (hsid : u.sessionId ≠ none) :
    ∃ u', s'.objs[i]? = some u' ∧ u'.sessionId = u.sessionId ∧
      (u.closed = true → u'.closed = true) := by
  have hlt : i < s.objs.length := (List.getElem?_eq_some.mp hget).1
  cases e with
  | post header body =>
    cases hr : routePost s.transports header body with
    | reuse tid =>
      simp only [step, hr, Option.some.injEq, Prod.mk.injEq] at hstep
      exact ⟨u, by rw [← hstep.1]; exact hget, rfl, fun h => h⟩
    | create =>
      simp only [step, hr, Option.some.injEq, Prod.mk.injEq] at hstep
      refine ⟨u, ?_, rfl, fun h => h⟩
      rw [← hstep.1]
      show (s.objs ++ [{ sessionId := none, closed := false }])[i]? = some u
      rw [List.getElem?_append_left hlt]
      exact hget
    | badRequest =>
      simp only [step, hr, Option.some.injEq, Prod.mk.injEq] at hstep
      exact ⟨u, by rw [← hstep.1]; exact hget, rfl, fun h => h⟩
  | initSession tid sid' =>
    cases hget' : s.objs[tid]? with
    | none => simp [step, hget'] at hstep
    | some t =>
      obtain ⟨tsid, tcl⟩ := t
      cases tcl with
      | true => simp [step, hget'] at hstep
      | false =>
      cases tsid with
      | some x => simp [step, hget'] at hstep
      | none =>
      by_cases he : sid' = ""
      · simp [step, hget', he] at hstep
      by_cases hu : usedId s sid' = true
      · simp [step, hget', he, hu] at hstep
      simp only [step, hget', Bool.false_eq_true, if_false, Option.isSome_none, he, hu,
        Option.some.injEq, Prod.mk.injEq] at hstep
      obtain ⟨h1, _⟩ := hstep
      by_cases hit : i = tid
      · rw [hit, hget'] at hget
        have hu' : u = { sessionId := none, closed := false } :=
          (Option.some.injEq .. ▸ hget).symm
        rw [hu'] at hsid
        simp at hsid
      · refine ⟨u, ?_, rfl, fun h => h⟩
        rw [← h1]
        show (s.objs.set tid { sessionId := some sid', closed := false })[i]? = some u
        rw [List.getElem?_set_ne (fun hh => hit hh.symm)]
        exact hget
  | closeTransport tid =>
    cases hget' : s.objs[tid]? with
    | none => simp [step, hget'] at hstep
    | some t =>
      obtain ⟨tsid, tcl⟩ := t
      cases tcl with
      | true => simp [step, hget'] at hstep
      | false =>
      cases tsid with
      | none =>
        simp only [step, hget', Bool.false_eq_true, if_false,
          Option.some.injEq, Prod.mk.injEq] at hstep
        obtain ⟨h1, _⟩ := hstep
        by_cases hit : i = tid
        · rw [hit, hget'] at hget
          have hu' : u = { sessionId := none, closed := false } :=
            (Option.some.injEq .. ▸ hget).symm
          rw [hu'] at hsid
          simp at hsid
        · refine ⟨u, ?_, rfl, fun h => h⟩
          rw [← h1]
          show (s.objs.set tid { sessionId := none, closed := true })[i]? = some u
          rw [List.getElem?_set_ne (fun hh => hit hh.symm)]
          exact hget
      | some sid₀ =>
        simp only [step, hget', Bool.false_eq_true, if_false,
          Option.some.injEq, Prod.mk.injEq] at hstep
        obtain ⟨h1, _⟩ := hstep
        by_cases hit : i = tid
        · rw [hit, hget'] at hget
          have hu' : u = { sessionId := some sid₀, closed := false } :=
            (Option.some.injEq .. ▸ hget).symm
          refine ⟨{ sessionId := some sid₀, closed := true }, ?_, by rw [hu'], fun h => rfl⟩
          rw [← h1, hit]
          show (s.objs.set tid { sessionId := some sid₀, closed := true })[tid]? =
            some { sessionId := some sid₀, closed := true }
          exact List.getElem?_set_self (hit ▸ hlt)
        · refine ⟨u, ?_, rfl, fun h => h⟩
          rw [← h1]
          show (s.objs.set tid { sessionId := some sid₀, closed := true })[i]? = some u
          rw [List.getElem?_set_ne (fun hh => hit hh.symm)]
          exact hget
  | getMcp header =>
    cases hr : routeSession s.transports header with
    | delegate tid =>
      simp only [step, hr, Option.some.injEq, Prod.mk.injEq] at hstep
      exact ⟨u, by rw [← hstep.1]; exact hget, rfl, fun h => h⟩
    | invalid =>
      simp only [step, hr, Option.some.injEq, Prod.mk.injEq] at hstep
      exact ⟨u, by rw [← hstep.1]; exact hget, rfl, fun h => h⟩
  | deleteMcp header =>
    cases hr : routeSession s.transports header with
    | delegate tid =>
      simp only [step, hr, Option.some.injEq, Prod.mk.injEq] at hstep
      exact ⟨u, by rw [← hstep.1]; exact hget, rfl, fun h => h⟩
    | invalid =>
      simp only [step, hr, Option.some.injEq, Prod.mk.injEq] at hstep
      exact ⟨u, by rw [← hstep.1]; exact hget, rfl, fun h => h⟩

/-- Some transport object carrying this session id has closed: the
session is dead for good. -/
def DeadId (s : ServerState) (sid : String) : Prop :=
  ∃ (i : Nat) (t : Transport), s.objs[i]? = some t ∧
    t.sessionId = some sid ∧ t.closed = true

theorem deadId_step (s s' : ServerState) (e : Event) (o : Output) (sid : String)
    (hstep : step s e = some (s', o)) (hd : DeadId s sid) : DeadId s' sid := by
  obtain ⟨i, t, hget, hsid, hcl⟩ := hd
  obtain ⟨u', hget', hsid', hcl'⟩ :=
    step_preserves_entry s s' e o hstep i t hget (by rw [hsid]; simp)
  exact ⟨i, u', hget', by rw [hsid', hsid], hcl' hcl⟩

theorem deadId_run (s : ServerState) (evs : List Event) (s' : ServerState)
    (os : List Output) (sid : String)
    (hrun : run s evs = some (s', os)) (hd : DeadId s sid) : DeadId s' sid := by
  induction evs generalizing s os with
  | nil =>
    simp only [run, Option.some.injEq, Prod.mk.injEq] at hrun
    exact hrun.1 ▸ hd
  | cons e es ih =>
    cases hstep : step s e with
    | none => simp [run, hstep] at hrun
    | some p =>
      obtain ⟨s₁, o⟩ := p
      cases hrest : run s₁ es with
      | none => simp [run, hstep, hrest] at hrun
      | some q =>
        obtain ⟨s₂, os₁⟩ := q
        simp only [run, hstep, hrest, Option.some.injEq, Prod.mk.injEq] at hrun
        exact ih s₁ os₁ (hrun.1 ▸ hrest) (deadId_step s s₁ e o sid hstep hd)

theorem deadId_lookup_none (s : ServerState) (sid : String)
    (hinv : StateInv s) (hd : DeadId s sid) :
    lookup s.transports sid = none := by
  obtain ⟨lb, bl, nd, inj, kne, cnt⟩ := hinv
  obtain ⟨i, t, hget, hsid, hcl⟩ := hd
  cases hl : lookup s.transports sid with
  | none => rfl
  | some tid' =>
    obtain ⟨t', ht', hts', htc'⟩ := lb sid tid' hl
    have := inj i tid' t t' sid hget ht' hsid hts'
    subst this
    rw [hget] at ht'
    have : t = t' := Option.some.injEq .. ▸ ht'
    rw [← this] at htc'
    rw [hcl] at htc'
    exact absurd htc' (by simp)

/-- C5: once a session's transport has closed (explicit termination or
engine-fatal error; the installed `onclose` evicts it from the map),
every later POST, GET or DELETE carrying that session id fails exactly
as an unknown-id request does: the id no longer resolves in the
registry, the POST handler answers the same 400 JSON-RPC error it gives
an unknown id, and the GET/DELETE handler the same 400 text. A closed
session is never reachable again and is indistinguishable from one
that never existed. -/
theorem c5_closed_session_unreachable (s s' s'' : ServerState) (tid : Nat)
    (sid : String) (t : Transport) (o : Output) (evs : List Event)
    (os : List Output)
    (h : Reachable s) (hget : s.objs[tid]? = some t)
    (hsid : t.sessionId = some sid)
    (hstep : step s (.closeTransport tid) = some (s', o))
    (hrun : run s' evs = some (s'', os)) :
    lookup s''.transports sid = none ∧
    (∀ (body : Body), step s'' (.post (some sid) body) =
      some (s'', .rejectedJson 400 postErrorBody)) ∧
    step s'' (.getMcp (some sid)) =
      some (s'', .rejectedText 400 "Invalid or missing session ID") ∧
    step s'' (.deleteMcp (some sid)) =
      some (s'', .rejectedText 400 "Invalid or missing session ID") := by
  have hstep0 := hstep
  obtain ⟨lb, bl, nd, inj, kne, cnt⟩ := reachable_inv s h
  obtain ⟨tsid, tcl⟩ := t
  obtain rfl : tsid = some sid := by simpa using hsid
  cases tcl with
  | true => simp [step, hget] at hstep
  | false =>
  have hlk : lookup s.transports sid = some tid :=
    bl tid { sessionId := some sid, closed := false } sid hget rfl rfl
  have hne : sid ≠ "" := kne sid tid hlk
  simp only [step, hget, Bool.false_eq_true, if_false,
    Option.some.injEq, Prod.mk.injEq] at hstep
  obtain ⟨h1, _⟩ := hstep
  have hdead' : DeadId s' sid := by
    rw [← h1]
    exact ⟨tid, { sessionId := some sid, closed := true },
      List.getElem?_set_self (List.getElem?_eq_some.mp hget).1, rfl, rfl⟩
  have hreach'' : Reachable s'' :=
    run_reachable s' evs s'' os (Reachable.step h hstep0) hrun
  have hdead'' : DeadId s'' sid := deadId_run s' evs s'' os sid hrun hdead'
  have hlk'' : lookup s''.transports sid = none :=
    deadId_lookup_none s'' sid (reachable_inv s'' hreach'') hdead''
  refine ⟨hlk'', ?_, ?_, ?_⟩
  · intro body
    have hroute : routePost s''.transports (some sid) body = .badRequest := by
      simp [routePost, truthy, hne, hlk'']
    simp [step, hroute]
  · have hroute : routeSession s''.transports (some sid) = .invalid := by
      simp [routeSession, hlk'']
    simp [step, hroute]
  · have hroute : routeSession s''.transports (some sid) = .invalid := by
      simp [routeSession, hlk'']
    simp [step, hroute]

theorem c5_closed_session_unreachable_witness :
    lookup exampleClosed.transports "abc" = none ∧
    step exampleClosed (.getMcp (some "abc")) =
      some (exampleClosed, .rejectedText 400 "Invalid or missing session ID") := by
  have h := c5_closed_session_unreachable exampleState exampleClosed exampleClosed
    0 "abc" { sessionId := some "abc", closed := false } Output.closedOut [] []
    exampleState_reachable rfl rfl exampleClosed_step rfl
  exact ⟨h.1, h.2.2.1⟩

theorem any_set_congr (l : List Transport) (i : Nat) (t x : Transport)
    (p : Transport → Bool) (h : l[i]? = some t) (hpx : p x = p t) :
    (l.set i x).any p = l.any p := by
  induction l generalizing i with
  | nil => simp at h
  | cons a rest ih =>
    cases i with
    | zero =>
      simp only [List.getElem?_cons_zero, Option.some.injEq] at h
      subst h
      simp [List.any_cons, hpx]
    | succ n =>
      simp only [List.getElem?_cons_succ] at h
      simp [List.any_cons, ih n h]

theorem any_set_of_pred (l : List Transport) (i : Nat) (x : Transport)
    (p : Transport → Bool) (hlt : i < l.length) (hx : p x = true) :
    (l.set i x).any p = true := by
  rw [List.any_eq_true]
  exact ⟨x, List.getElem?_mem (List.getElem?_set_self hlt), hx⟩

/-- Only the `onsessioninitialized` callback ever sets the session-id
response header, and only for the id just minted for an uninitialized
transport. -/
theorem header_emit_is_init (s s' : ServerState) (e : Event) (o : Output)
    (sid : String) (hstep : step s e = some (s', o))
    (hset : setsSessionHeader o = some sid) :
    ∃ (tid : Nat), e = .initSession tid sid ∧
      usedId s sid = false ∧ usedId s' sid = true := by
  cases e with
  | post header body =>
    cases hr : routePost s.transports header body <;>
      simp only [step, hr, Option.some.injEq, Prod.mk.injEq] at hstep <;>
      rw [← hstep.2] at hset <;> simp [setsSessionHeader] at hset
  | getMcp header =>
    cases hr : routeSession s.transports header <;>
      simp only [step, hr, Option.some.injEq, Prod.mk.injEq] at hstep <;>
      rw [← hstep.2] at hset <;> simp [setsSessionHeader] at hset
  | deleteMcp header =>
    cases hr : routeSession s.transports header <;>
      simp only [step, hr, Option.some.injEq, Prod.mk.injEq] at hstep <;>
      rw [← hstep.2] at hset <;> simp [setsSessionHeader] at hset
  | closeTransport tid =>
    cases hget : s.objs[tid]? with
    | none => simp [step, hget] at hstep
    | some t =>
      obtain ⟨tsid, tcl⟩ := t
      cases tcl with
      | true => simp [step, hget] at hstep
      | false =>
      cases tsid with
      | none =>
        simp only [step, hget, Bool.false_eq_true, if_false,
          Option.some.injEq, Prod.mk.injEq] at hstep
        rw [← hstep.2] at hset
        simp [setsSessionHeader] at hset
      | some sid₀ =>
        simp only [step, hget, Bool.false_eq_true, if_false,
          Option.some.injEq, Prod.mk.injEq] at hstep
        rw [← hstep.2] at hset
        simp [setsSessionHeader] at hset
  | initSession tid sid' =>
    cases hget : s.objs[tid]? with
    | none => simp [step, hget] at hstep
    | some t =>
      obtain ⟨tsid, tcl⟩ := t
      cases tcl with
      | true => simp [step, hget] at hstep
      | false =>
      cases tsid with
      | some x => simp [step, hget] at hstep
      | none =>
      by_cases he : sid' = ""
      · simp [step, hget, he] at hstep
      by_cases hu : usedId s sid' = true
      · simp [step, hget, he, hu] at hstep
      simp only [step, hget, Bool.false_eq_true, if_false, Option.isSome_none, he, hu,
        Option.some.injEq, Prod.mk.injEq] at hstep
      rw [← hstep.2] at hset
      simp only [setsSessionHeader, Option.some.injEq] at hset
      subst hset
      refine ⟨tid, rfl, by simpa using hu, ?_⟩
      rw [← hstep.1]
      show ((s.objs.set tid { sessionId := some sid', closed := false }).any
        (fun t => t.sessionId == some sid')) = true
      exact any_set_of_pred s.objs tid _ _ (List.getElem?_eq_some.mp hget).1 (by simp)

/-- A step that does not set the header for `sid` does not change
whether `sid` has ever been used. -/
theorem usedId_step_eq (s s' : ServerState) (e : Event) (o : Output)
    (sid : String) (hstep : step s e = some (s', o))
    (hno : setsSessionHeader o ≠ some sid) :
    usedId s' sid = usedId s sid := by
  cases e with
  | post header body =>
    cases hr : routePost s.transports header body with
    | reuse tid =>
      simp only [step, hr, Option.some.injEq, Prod.mk.injEq] at hstep
      rw [← hstep.1]
    | create =>
      simp only [step, hr, Option.some.injEq, Prod.mk.injEq] at hstep
      rw [← hstep.1]
      show ((s.objs ++ [({ sessionId := none, closed := false } : Transport)]).any
        (fun t => t.sessionId == some sid)) = usedId s sid
      simp [usedId, List.any_append]
    | badRequest =>
      simp only [step, hr, Option.some.injEq, Prod.mk.injEq] at hstep
      rw [← hstep.1]
  | getMcp header =>
    cases hr : routeSession s.transports header <;>
      simp only [step, hr, Option.some.injEq, Prod.mk.injEq] at hstep <;>
      rw [← hstep.1]
  | deleteMcp header =>
    cases hr : routeSession s.transports header <;>
      simp only [step, hr, Option.some.injEq, Prod.mk.injEq] at hstep <;>
      rw [← hstep.1]
  | closeTransport tid =>
    cases hget : s.objs[tid]? with
    | none => simp [step, hget] at hstep
    | some t =>
      obtain ⟨tsid, tcl⟩ := t
      cases tcl with
      | true => simp [step, hget] at hstep
      | false =>
      cases tsid with
      | none =>
        simp only [step, hget, Bool.false_eq_true, if_false,
          Option.some.injEq, Prod.mk.injEq] at hstep
        rw [← hstep.1]
        show ((s.objs.set tid { sessionId := none, closed := true }).any
          (fun t => t.sessionId == some sid)) = usedId s sid
        exact any_set_congr s.objs tid _ _ _ hget rfl
      | some sid₀ =>
        simp only [step, hget, Bool.false_eq_true, if_false,
          Option.some.injEq, Prod.mk.injEq] at hstep
        rw [← hstep.1]
        show ((s.objs.set tid { sessionId := some sid₀, closed := true }).any
          (fun t => t.sessionId == some sid)) = usedId s sid
        exact any_set_congr s.objs tid _ _ _ hget rfl
  | initSession tid sid' =>
    cases hget : s.objs[tid]? with
    | none => simp [step, hget] at hstep
    | some t =>
      obtain ⟨tsid, tcl⟩ := t
      cases tcl with
      | true => simp [step, hget] at hstep
      | false =>
      cases tsid with
      | some x => simp [step, hget] at hstep
      | none =>
      by_cases he : sid' = ""
      · simp [step, hget, he] at hstep
      by_cases hu : usedId s sid' = true
      · simp [step, hget, he, hu] at hstep
      simp only [step, hget, Bool.false_eq_true, if_false, Option.isSome_none, he, hu,
        Option.some.injEq, Prod.mk.injEq] at hstep
      have hne : sid' ≠ sid := by
        intro hh
        rw [← hstep.2] at hno
        exact hno (by rw [setsSessionHeader, hh])
      rw [← hstep.1]
      show ((s.objs.set tid { sessionId := some sid', closed := false }).any
        (fun t => t.sessionId == some sid)) = usedId s sid
      refine any_set_congr s.objs tid _ _ _ hget ?_
      simp [hne]

theorem usedId_mono (s s' : ServerState) (e : Event) (o : Output)
    (sid : String) (hstep : step s e = some (s', o))
    (h : usedId s sid = true) : usedId s' sid = true := by
  by_cases hset : setsSessionHeader o = some sid
  · obtain ⟨tid, rfl, hfalse, _⟩ := header_emit_is_init s s' _ o sid hstep hset
    rw [h] at hfalse
    exact absurd hfalse (by simp)
  · rw [usedId_step_eq s s' e o sid hstep hset]
    exact h

theorem usedId_mono_run (s : ServerState) (evs : List Event) (s' : ServerState)
    (os : List Output) (sid : String)
    (hrun : run s evs = some (s', os)) (h : usedId s sid = true) :
    usedId s' sid = true := by
  induction evs generalizing s os with
  | nil =>
    simp only [run, Option.some.injEq, Prod.mk.injEq] at hrun
    exact hrun.1 ▸ h
  | cons e es ih =>
    cases hstep : step s e with
    | none => simp [run, hstep] at hrun
    | some p =>
      obtain ⟨s₁, o⟩ := p
      cases hrest : run s₁ es with
      | none => simp [run, hstep, hrest] at hrun
      | some q =>
        obtain ⟨s₂, os₁⟩ := q
        simp only [run, hstep, hrest, Option.some.injEq, Prod.mk.injEq] at hrun
        exact ih s₁ os₁ (hrun.1 ▸ hrest) (usedId_mono s s₁ e o sid hstep h)

theorem run_count_zero (s : ServerState) (evs : List Event) (s' : ServerState)
    (os : List Output) (sid : String)
    (hrun : run s evs = some (s', os)) (h : usedId s sid = true) :
    os.countP (fun o => setsSessionHeader o == some sid) = 0 := by
  induction evs generalizing s os with
  | nil =>
    simp only [run, Option.some.injEq, Prod.mk.injEq] at hrun
    rw [← hrun.2]
    rfl
  | cons e es ih =>
    cases hstep : step s e with
    | none => simp [run, hstep] at hrun
    | some p =>
      obtain ⟨s₁, o⟩ := p
      cases hrest : run s₁ es with
      | none => simp [run, hstep, hrest] at hrun
      | some q =>
        obtain ⟨s₂, os₁⟩ := q
        simp only [run, hstep, hrest, Option.some.injEq, Prod.mk.injEq] at hrun
        rw [← hrun.2]
        have hno : setsSessionHeader o ≠ some sid := by
          intro hset
          obtain ⟨tid, rfl, hfalse, _⟩ := header_emit_is_init s s₁ _ o sid hstep hset
          rw [h] at hfalse
          exact absurd hfalse (by simp)
        simp only [List.countP_cons]
        have : (setsSessionHeader o == some sid) = false := by
          simpa using hno
        rw [this]
        simp only [Bool.false_eq_true, if_false, Nat.add_zero]
        exact ih s₁ os₁ (hrun.1 ▸ hrest) (usedId_mono s s₁ e o sid hstep h)

theorem run_count_once (s : ServerState) (evs : List Event) (s' : ServerState)
    (os : List Output) (sid : String)
    (hrun : run s evs = some (s', os)) (h : usedId s sid = false) :
    os.countP (fun o => setsSessionHeader o == some sid) =
      (if usedId s' sid = true then 1 else 0) := by
  induction evs generalizing s os with
  | nil =>
    simp only [run, Option.some.injEq, Prod.mk.injEq] at hrun
    rw [← hrun.2, ← hrun.1, h]
    simp
  | cons e es ih =>
    cases hstep : step s e with
    | none => simp [run, hstep] at hrun
    | some p =>
      obtain ⟨s₁, o⟩ := p
      cases hrest : run s₁ es with
      | none => simp [run, hstep, hrest] at hrun
      | some q =>
        obtain ⟨s₂, os₁⟩ := q
        simp only [run, hstep, hrest, Option.some.injEq, Prod.mk.injEq] at hrun
        rw [← hrun.2]
        by_cases hset : setsSessionHeader o = some sid
        · obtain ⟨tid, rfl, _, hused₁⟩ := header_emit_is_init s s₁ _ o sid hstep hset
          have hzero := run_count_zero s₁ es s₂ os₁ sid hrest hused₁
          have hused' : usedId s' sid = true :=
            hrun.1 ▸ usedId_mono_run s₁ es s₂ os₁ sid hrest hused₁
          simp only [List.countP_cons, hzero, hused', if_true]
          have : (setsSessionHeader o == some sid) = true := by simpa using hset
          rw [this]
          simp
        · have heq := usedId_step_eq s s₁ e o sid hstep hset
          rw [h] at heq
          simp only [List.countP_cons]
          have : (setsSessionHeader o == some sid) = false := by simpa using hset
          rw [this]
          simp only [Bool.false_eq_true, if_false, Nat.add_zero]
          exact ih s₁ os₁ (hrun.1 ▸ hrest) heq

/-- C8: across any whole run of the server, the `mcp-session-id`
response header for a given session id is set exactly once — on the
response to the creation request, at the moment `onsessioninitialized`
fires — if that session was ever created, and never otherwise; in
particular no response to a subsequent request of the session ever sets
it again. The second conjunct pins down the moment: any output setting
the header for `sid` comes from the initialization event of a
previously unused `sid`. -/
theorem c8_header_set_once (evs : List Event) (s : ServerState)
    (os : List Output) (sid : String)
    (hrun : run initState evs = some (s, os)) :
    os.countP (fun o => setsSessionHeader o == some sid) =
      (if usedId s sid = true then 1 else 0) ∧
    (∀ (s₁ s₂ : ServerState) (e : Event) (o : Output),
      step s₁ e = some (s₂, o) → setsSessionHeader o = some sid →
      ∃ (tid : Nat), e = .initSession tid sid ∧ usedId s₁ sid = false) := by
  refine ⟨run_count_once initState evs s os sid hrun rfl, ?_⟩
  intro s₁ s₂ e o hstep hset
  obtain ⟨tid, rfl, hfalse, _⟩ := header_emit_is_init s₁ s₂ _ o sid hstep hset
  exact ⟨tid, rfl, hfalse⟩

theorem c8_header_set_once_witness :
    List.countP (fun o => setsSessionHeader o == some "abc")
      [Output.created 0, Output.headerSet "abc"] =
      (if usedId exampleState "abc" = true then 1 else 0) :=
  (c8_header_set_once [.post none exampleInitBody, .initSession 0 "abc"]
    exampleState [Output.created 0, Output.headerSet "abc"] "abc" (by decide)).1

/-- C1 as frozen says a present-but-unknown session id always fails
with a 400. The code tests JavaScript truthiness, so a present but
empty `mcp-session-id` header together with an initialize body reaches
the creation branch instead: header `some ""` is present, `""` is not a
key of the (empty) registry, yet the route is `create`, not
`badRequest`. -/
theorem c1_counterexample :
    (some "" : Option String) ≠ none ∧
    lookup [] "" = none ∧
    routePost [] (some "") (Body.obj (some "initialize")) = PostRoute.create ∧
    PostRoute.create ≠ PostRoute.badRequest := by
  refine ⟨by decide, rfl, by decide, by decide⟩

/-- C1 (amended): the `POST /mcp` decision table, with "session-id
present" read as the code's truthiness test (a present but empty header
behaves like an absent one): a non-empty known id is delegated to the
stored transport; an absent-or-empty header with an initialize body
creates a new transport; a non-empty unknown id fails with a 400 and no
transport handles it; an absent-or-empty header with a non-initialize
body fails with a 400 and no transport handles it. -/
theorem c1_routing_table (m : Registry) (header : Option String) (body : Body) :
    (∀ (sid : String) (tid : Nat), header = some sid → sid ≠ "" →
      lookup m sid = some tid → routePost m header body = .reuse tid) ∧
    ((header = none ∨ header = some "") → bodyIsInitialize body = true →
      routePost m header body = .create) ∧
    (∀ (sid : String), header = some sid → sid ≠ "" → lookup m sid = none →
      routePost m header body = .badRequest) ∧
    ((header = none ∨ header = some "") → bodyIsInitialize body = false →
      routePost m header body = .badRequest) := by
  refine ⟨?_, ?_, ?_, ?_⟩
  · rintro sid tid rfl hne hl
    simp [routePost, truthy, hne, hl]
  · rintro (rfl | rfl) hb <;> simp [routePost, truthy, hb]
  · rintro sid rfl hne hl
    simp [routePost, truthy, hne, hl]
  · rintro (rfl | rfl) hb <;> simp [routePost, truthy, hb]

theorem c1_routing_table_witness :
    routePost [("a", 0)] (some "a") Body.absent = PostRoute.reuse 0 :=
  (c1_routing_table [("a", 0)] (some "a") Body.absent).1 "a" 0 rfl (by decide) rfl

/-- C2 as frozen says registering an already-present id fails with a
`DuplicateSession` error rather than inserting. The assignment
`transports[sessionId] = transport` in `onsessioninitialized` performs
no such check: with "a" already registered to transport 0, registering
transport 1 under "a" succeeds and the map now returns the new
transport. -/
theorem c2_counterexample :
    lookup [("a", 0)] "a" = some 0 ∧
    register [("a", 0)] "a" 1 = [("a", 1)] ∧
    lookup (register [("a", 0)] "a" 1) "a" = some 1 := by
  refine ⟨rfl, rfl, rfl⟩

/-- C2 (amended): the register operation inserts unconditionally; when
the id is already present the existing entry is overwritten in place by
the new transport (the map keeps its size), and no error of any kind is
signalled. -/
theorem c2_register_overwrites (m : Registry) (sid : String) (v₀ v : Nat)
    (h : lookup m sid = some v₀) :
    lookup (register m sid v) sid = some v ∧ (register m sid v).length = m.length := by
  exact ⟨lookup_register_self m sid v,
    length_register_of_mem m sid v (mem_keys_of_lookup m sid v₀ h)⟩

theorem c2_register_overwrites_witness :
    lookup (register [("a", 0)] "a" 1) "a" = some 1 ∧
    (register [("a", 0)] "a" 1).length = List.length [("a", 0)] :=
  c2_register_overwrites [("a", 0)] "a" 0 1 rfl

/-- C4: whenever the `POST /mcp` handler rejects a request (the branch
for a missing or invalid session id), the response has HTTP status 400
and its body is exactly the JSON-RPC error object with `jsonrpc` "2.0",
`error.code` -32000, a string `error.message`, and `id` null. -/
theorem c4_post_reject_shape (s s' : ServerState) (header : Option String)
    (body : Body) (o : Output)
    (hstep : step s (.post header body) = some (s', o))
    (hrej : routePost s.transports header body = .badRequest) :
    o = .rejectedJson 400
      { jsonrpc := "2.0", code := -32000,
        message := "Bad Request: No valid session ID provided", id := none } := by
  simp only [step, hrej, Option.some.injEq, Prod.mk.injEq] at hstep
  exact hstep.2.symm

theorem c4_post_reject_shape_witness :
    Output.rejectedJson 400 postErrorBody = Output.rejectedJson 400
      { jsonrpc := "2.0", code := -32000,
        message := "Bad Request: No valid session ID provided", id := none } :=
  c4_post_reject_shape initState initState none Body.absent
    (Output.rejectedJson 400 postErrorBody) (by decide) (by decide)

/-- C9: a request rejected with a 400 — a `POST /mcp` whose routing
fails, or a GET/DELETE `/mcp` with a missing or unknown session id —
leaves the server state (registry and transport store) exactly as it
was: no transport is created, registered or evicted. -/
theorem c9_reject_leaves_state (s : ServerState) (header : Option String) (body : Body) :
    (routePost s.transports header body = .badRequest →
      step s (.post header body) = some (s, .rejectedJson 400 postErrorBody)) ∧
    (routeSession s.transports header = .invalid →
      step s (.getMcp header) = some (s, .rejectedText 400 "Invalid or missing session ID") ∧
      step s (.deleteMcp header) = some (s, .rejectedText 400 "Invalid or missing session ID")) := by
  refine ⟨fun hrej => by simp [step, hrej], fun hrej => ⟨by simp [step, hrej], by simp [step, hrej]⟩⟩

theorem c9_reject_leaves_state_witness :
    step initState (.post none Body.absent) =
      some (initState, .rejectedJson 400 postErrorBody) :=
  (c9_reject_leaves_state initState none Body.absent).1 (by decide)

/-- C10: when a transport closes, the installed `onclose` callback
leaves the registry untouched if the transport never acquired a session
id, and otherwise deletes exactly the entry for the transport's own id,
leaving every other id's binding unchanged. -/
theorem c10_close_eviction (s s' : ServerState) (tid : Nat) (t : Transport) (o : Output)
    (hget : s.objs[tid]? = some t)
    (hstep : step s (.closeTransport tid) = some (s', o)) :
    (t.sessionId = none → s'.transports = s.transports) ∧
    (∀ (sid : String), t.sessionId = some sid →
      s'.transports = evict s.transports sid ∧
      ∀ (sid' : String), sid' ≠ sid →
        lookup s'.transports sid' = lookup s.transports sid') := by
  simp only [step, hget] at hstep
  by_cases hc : t.closed = true
  · simp [hc] at hstep
  · simp only [hc, Bool.false_eq_true, if_false] at hstep
    constructor
    · intro hnone
      rw [hnone] at hstep
      simp only [Option.some.injEq, Prod.mk.injEq] at hstep
      rw [← hstep.1]
    · intro sid hsid
      rw [hsid] at hstep
      simp only [Option.some.injEq, Prod.mk.injEq] at hstep
      refine ⟨by rw [← hstep.1], fun sid' hne => ?_⟩
      rw [← hstep.1]
      exact lookup_evict_ne s.transports sid sid' hne

/-- C3: in every reachable state, a transport object is registered in
the `transports` map (under some id) exactly when its `closed` flag is
false and its `sessionId` is non-null — spec invariant I2. Insertion
only happens in `onsessioninitialized`, after the id is assigned, and
`onclose` removes the entry, which is what makes both directions hold. -/
theorem c3_registry_iff_bound (s : ServerState) (h : Reachable s)
    (tid : Nat) (t : Transport) (hget : s.objs[tid]? = some t) :
    (∃ (sid : String), lookup s.transports sid = some tid) ↔
      (t.closed = false ∧ t.sessionId ≠ none) := by
  obtain ⟨lb, bl, nd, inj, kne, cnt⟩ := reachable_inv s h
  constructor
  · rintro ⟨sid, hl⟩
    obtain ⟨t', ht', hts', htc'⟩ := lb sid tid hl
    rw [hget] at ht'
    obtain rfl := Option.some.injEq .. ▸ ht'
    refine ⟨htc', ?_⟩
    rw [hts']
    simp
  · rintro ⟨hc, hs⟩
    obtain ⟨sid, hsid⟩ := Option.ne_none_iff_exists'.mp hs
    exact ⟨sid, bl tid t sid hget hsid hc⟩

theorem c3_registry_iff_bound_witness :
    ({ sessionId := some "abc", closed := false } : Transport).closed = false ∧
    ({ sessionId := some "abc", closed := false } : Transport).sessionId ≠ none :=
  (c3_registry_iff_bound exampleState exampleState_reachable 0
      { sessionId := some "abc", closed := false } rfl).mp ⟨"abc", rfl⟩

/-- C6: for GET and DELETE on `/mcp`, a request whose session-id header
is absent or names no registered transport is answered with a 400, and
a request whose header names a registered transport is delegated to
exactly that transport (the GET opening the push channel and the DELETE
terminating are what `handleRequest` then does inside the SDK). -/
theorem c6_session_request_routing (s : ServerState) (h : Reachable s)
    (header : Option String) :
    ((header = none ∨ lookup s.transports (header.getD "") = none) →
      step s (.getMcp header) = some (s, .rejectedText 400 "Invalid or missing session ID") ∧
      step s (.deleteMcp header) = some (s, .rejectedText 400 "Invalid or missing session ID")) ∧
    (∀ (sid : String) (tid : Nat), header = some sid →
      lookup s.transports sid = some tid →
      step s (.getMcp header) = some (s, .delegated tid) ∧
      step s (.deleteMcp header) = some (s, .delegated tid)) := by
  obtain ⟨lb, bl, nd, inj, kne, cnt⟩ := reachable_inv s h
  constructor
  · intro hbad
    have hroute : routeSession s.transports header = .invalid := by
      rcases hbad with rfl | hl
      · simp [routeSession, truthy]
      · simp [routeSession, hl]
    exact ⟨by simp [step, hroute], by simp [step, hroute]⟩
  · rintro sid tid rfl hl
    have hne : sid ≠ "" := kne sid tid hl
    have hroute : routeSession s.transports (some sid) = .delegate tid := by
      simp [routeSession, truthy, hne, hl]
    exact ⟨by simp [step, hroute], by simp [step, hroute]⟩

theorem c6_session_request_routing_witness :
    step exampleState (.getMcp (some "abc")) = some (exampleState, .delegated 0) ∧
    step exampleState (.deleteMcp (some "abc")) = some (exampleState, .delegated 0) :=
  (c6_session_request_routing exampleState exampleState_reachable (some "abc")).2
    "abc" 0 rfl rfl

/-- C7: the `/health` handler ignores the request (in particular any
session-id header) and returns a body with exactly the fields `status`,
`timestamp`, `activeSessions`, `serverName` and `serverVersion`, where
`activeSessions` — `Object.keys(transports).length` — equals the number
of transports currently in state `BOUND` at the time of the call. -/
theorem c7_health_shape (s : ServerState) (h : Reachable s)
    (header header₂ : Option String) (ts name ver : String) :
    handleHealth s header ts name ver = handleHealth s header₂ ts name ver ∧
    handleHealth s header ts name ver =
      { status := "healthy", timestamp := ts,
        activeSessions := s.objs.countP Bound,
        serverName := name, serverVersion := ver } := by
  obtain ⟨_, _, _, _, _, cnt⟩ := reachable_inv s h
  refine ⟨rfl, ?_⟩
  simp [handleHealth, sessionCount, cnt]

theorem c7_health_shape_witness :
    handleHealth exampleState (some "zzz") "t" "n" "v" =
      { status := "healthy", timestamp := "t",
        activeSessions := exampleState.objs.countP Bound,
        serverName := "n", serverVersion := "v" } :=
  (c7_health_shape exampleState exampleState_reachable (some "zzz") none "t" "n" "v").2

theorem c10_close_eviction_witness :
    exampleClosed.transports = evict exampleState.transports "abc" ∧
    lookup exampleClosed.transports "zzz" = lookup exampleState.transports "zzz" := by
  have h := (c10_close_eviction exampleState exampleClosed 0
      { sessionId := some "abc", closed := false } Output.closedOut rfl
      exampleClosed_step).2 "abc" rfl
  exact ⟨h.1, h.2 "zzz" (by decide)⟩

end McpStreamable
